import Mathlib

/-!
A Lean embedding of the `ccq` repository's session-discovery, glob-pattern
synthesis and output-formatting code (`src/session_loader.rs`,
`src/query_session.rs`, `src/formatter.rs`), together with theorems that
settle the specification claims about that code.

Paths are modelled as absolute component lists (`List String`): a file found
by the directory walk is identified by its component path relative to the
walked root, and the rendered path string is the slash-joined absolute path.
Rust `usize` counters are modelled as `Nat` (the counts never overflow in
practice and no claim concerns overflow); Rust `i64` timestamp arithmetic is
modelled on `Int`, with `Int.tdiv` for Rust's truncating `/`.
-/

namespace CCQ

/-! ## String primitives (models of Rust `str` operations, via char lists) -/

/-- Model of Rust `str::starts_with`: char-list prefix test. -/
def strStartsWith (s p : String) : Bool :=
  decide (p.toList <+: s.toList)

/-- Model of Rust `str::ends_with`: char-list suffix test. -/
def strEndsWith (s p : String) : Bool :=
  decide (p.toList <:+ s.toList)

/-- Model of Rust `str::contains` for a string needle: char-list substring test. -/
def strContainsSub (s p : String) : Bool :=
  decide (p.toList <:+: s.toList)

/-- Join a list of strings with a separator; models Rust `slice::join`
(and the `", "`-joins in the repository). -/
def joinWith (sep : String) : List String → String
  | [] => ""
  | [a] => a
  | a :: b :: rest => a ++ sep ++ joinWith sep (b :: rest)

/-- Repeat a string `n` times; models Rust `str::repeat`. -/
def strRepeat (s : String) : Nat → String
  | 0 => ""
  | n + 1 => s ++ strRepeat s n

/-! ## Path model -/

/-- An absolute path, as its list of components (no slashes inside a
component; the empty list is the filesystem root `/`). -/
abbrev AbsPath := List String

/-- Render an absolute component path as Rust's `Path::to_string_lossy`
would: `/` followed by the slash-joined components. -/
def pathString (comps : AbsPath) : String :=
  "/" ++ joinWith "/" comps

/-- Model of `PathBuf::join(rel).to_string_lossy()` for an absolute
directory string and a relative fragment: Rust inserts a separator unless
the directory is the bare root `/`. -/
def joinPathStr (dir rel : String) : String :=
  if dir = "/" then dir ++ rel else dir ++ "/" ++ rel

/-- Model of the chain `path.parent().and_then(parent).and_then(file_name)`
in `walk_and_count`: the name of the directory two levels above the file
(`None` when the path is too short to have one, as in Rust where
`file_name` of `/` is `None`). -/
def twoUpName (comps : AbsPath) : Option String :=
  comps.dropLast.dropLast.getLast?

/-! ## FilePattern and SessionInfo (`src/session_loader.rs`) -/

/-- Pattern for the query engine to read JSONL files
(`enum FilePattern` in `src/session_loader.rs`). -/
inductive FilePattern where
  | Single (glob : String)
  | Multiple (globs : List String)
  deriving DecidableEq, Repr

/-- The `Display` implementation for `FilePattern`: a single glob renders
as a quoted literal, several as a bracketed comma-space-joined list of
quoted literals. -/
def FilePattern.render : FilePattern → String
  | .Single p => "'" ++ p ++ "'"
  | .Multiple ps => "[" ++ joinWith ", " (ps.map fun p => "'" ++ p ++ "'") ++ "]"

/-- Information about discovered session files
(`struct SessionInfo` in `src/session_loader.rs`). -/
structure SessionInfo where
  session_count : Nat
  agent_count : Nat
  project_count : Nat
  file_pattern : FilePattern
  deriving DecidableEq, Repr

/-! ## The tree walker (`walk_and_count`) -/

/-- The per-file body of the `walk_and_count` loop: the `(sessions, agents,
total_jsonl)` contribution of one regular file, given the walked root `dir`
and the file's component path `rel` relative to it.  Mirrors
`src/session_loader.rs` lines 77-117: non-`.jsonl` files contribute
nothing; every `.jsonl` file counts in the total; a file on a path
containing `/subagents/` whose basename starts with `agent-` is an agent
file (filtered by the directory two levels up when a filter is given); a
file whose basename does not start with `agent-` and whose path does not
contain `/subagents/` is a session file (filtered by its basename). -/
def fileCounts (dir : AbsPath) (session_filter : Option String)
    (rel : List String) : Nat × Nat × Nat :=
  let path := dir ++ rel
  let path_str := pathString path
  if ¬ strEndsWith path_str ".jsonl" then (0, 0, 0)
  else
    match path.getLast? with
    | none => (0, 0, 1)
    | some basename =>
      let is_subagent_path := strContainsSub path_str "/subagents/"
      if is_subagent_path && strStartsWith basename "agent-" then
        match session_filter with
        | none => (0, 1, 1)
        | some filter =>
          match twoUpName path with
          | none => (0, 0, 1)
          | some session_dir =>
            if strStartsWith session_dir filter then (0, 1, 1) else (0, 0, 1)
      else
        if !strStartsWith basename "agent-" && !is_subagent_path &&
            session_filter.all (fun f => strStartsWith basename f) then
          (1, 0, 1)
        else (0, 0, 1)

/-- Single-pass file discovery (`walk_and_count` in `src/session_loader.rs`):
counts sessions, agents and total `.jsonl` files over the list of regular
files the directory walk yields (each given by its component path relative
to `dir`). -/
def walk_and_count (dir : AbsPath) (session_filter : Option String)
    (files : List (List String)) : Nat × Nat × Nat :=
  files.foldr (fun rel acc => fileCounts dir session_filter rel + acc) (0, 0, 0)

/-! ## The three discovery modes (`get_session_files_*`) -/

/-- `get_session_files_data_dir` (`src/session_loader.rs` lines 164-206):
discovery in an explicit data directory.  `files` is the list of regular
files the walk yields under `dir`. -/
def get_session_files_data_dir (dir : AbsPath) (session_filter : Option String)
    (files : List (List String)) : SessionInfo :=
  let c := walk_and_count dir session_filter files
  let sessions := c.1
  let agents := c.2.1
  let total_jsonl := c.2.2
  if sessions = 0 ∧ agents = 0 then
    if total_jsonl = 0 then
      { session_count := 0, agent_count := 0, project_count := 0
        file_pattern := .Single "" }
    else
      -- Has JSONL files but they don't match normal session naming - still use them
      { session_count := total_jsonl, agent_count := 0, project_count := 1
        file_pattern := .Single (joinPathStr (pathString dir) "**/*.jsonl") }
  else
    let file_pattern :=
      match session_filter with
      | some filter =>
        FilePattern.Multiple
          ([joinPathStr (pathString dir) (filter ++ "*.jsonl")] ++
            (if agents > 0 then
              [joinPathStr (pathString dir) (filter ++ "*/subagents/*.jsonl")]
             else []))
      | none => FilePattern.Single (joinPathStr (pathString dir) "**/*.jsonl")
    { session_count := sessions, agent_count := agents, project_count := 1
      file_pattern := file_pattern }

/-- One project directory under the projects base, for all-projects mode:
its directory name and the regular files the walk yields inside it. -/
structure ProjectDir where
  name : String
  files : List (List String)

/-- The summed `(total_sessions, total_agents, _)` of the per-project walks
in `get_session_files_all_projects`: the parallel reduce with pairwise sum
is an associative, commutative fold, modelled as a left fold. -/
def allProjectsTotals (base : AbsPath) (projects : List ProjectDir)
    (session_filter : Option String) : Nat × Nat × Nat :=
  (projects.map fun p => walk_and_count (base ++ [p.name]) session_filter p.files).foldl
    (fun a b => a + b) ((0, 0, 0) : Nat × Nat × Nat)

/-- `get_session_files_all_projects` (`src/session_loader.rs` lines
210-253): walks every project directory under `base`, sums the per-project
counts, and synthesizes the pattern against `base/*`. -/
def get_session_files_all_projects (base : AbsPath)
    (projects : List ProjectDir) (session_filter : Option String) : SessionInfo :=
  let totals := allProjectsTotals base projects session_filter
  let total_sessions := totals.1
  let total_agents := totals.2.1
  if total_sessions = 0 then
    { session_count := 0, agent_count := 0, project_count := 0
      file_pattern := .Single "" }
  else
    let file_pattern :=
      match session_filter with
      | some filter =>
        FilePattern.Multiple
          ([joinPathStr (joinPathStr (pathString base) "*") (filter ++ "*.jsonl")] ++
            (if total_agents > 0 then
              [joinPathStr (joinPathStr (pathString base) "*")
                (filter ++ "*/subagents/*.jsonl")]
             else []))
      | none => FilePattern.Single (joinPathStr (pathString base) "*/**/*.jsonl")
    { session_count := total_sessions, agent_count := total_agents
      project_count := projects.length, file_pattern := file_pattern }

/-- `get_session_files_project` (`src/session_loader.rs` lines 257-302):
discovery in one resolved project directory.  `dirExists` models
`claude_dir.exists()`; `files` is the walk's file list when it does. -/
def get_session_files_project (claude_dir : AbsPath) (dirExists : Bool)
    (session_filter : Option String) (files : List (List String)) : SessionInfo :=
  if !dirExists then
    { session_count := 0, agent_count := 0, project_count := 1
      file_pattern := .Single "" }
  else
    let c := walk_and_count claude_dir session_filter files
    let sessions := c.1
    let agents := c.2.1
    if sessions = 0 then
      { session_count := 0, agent_count := 0, project_count := 1
        file_pattern := .Single "" }
    else
      let file_pattern :=
        match session_filter with
        | some filter =>
          FilePattern.Multiple
            ([joinPathStr (pathString claude_dir) (filter ++ "*.jsonl")] ++
              (if agents > 0 then
                [joinPathStr (pathString claude_dir) (filter ++ "*/subagents/*.jsonl")]
               else []))
        | none => FilePattern.Single (joinPathStr (pathString claude_dir) "**/*.jsonl")
      { session_count := sessions, agent_count := agents, project_count := 1
        file_pattern := file_pattern }

/-- `get_project_slug` (`src/utils.rs`): replace every `/` and `.` of the
resolved project path with `-`. -/
def get_project_slug (path : String) : String :=
  String.mk (path.toList.map fun c => if c = '/' ∨ c = '.' then '-' else c)

/-- The external environment `get_session_files` runs against: the
projects base directory (`claude_projects_base`), the project directories
found under it, the environment-dependent project-path resolution
(`resolve_project_path` reads the home directory, an env var and the cwd,
so it is a parameter here), directory existence, and the files a walk of a
given directory yields. -/
structure Fs where
  base : AbsPath
  projects : List ProjectDir
  resolveProjectPath : String → String
  dirExists : AbsPath → Bool
  filesUnder : AbsPath → List (List String)

/-- `get_session_files` (`src/session_loader.rs` lines 142-160): dispatch
on the addressing mode — explicit data directory, all projects, or one
named project (resolved to `base/<slug>`). -/
def get_session_files (fs : Fs) (project_path : Option String)
    (session_filter : Option String) (data_dir : Option AbsPath) : SessionInfo :=
  match data_dir with
  | some dir => get_session_files_data_dir dir session_filter (fs.filesUnder dir)
  | none =>
    match project_path with
    | none => get_session_files_all_projects fs.base fs.projects session_filter
    | some p =>
      let slug := get_project_slug (fs.resolveProjectPath p)
      let dir := fs.base ++ [slug]
      get_session_files_project dir (fs.dirExists dir) session_filter (fs.filesUnder dir)

/-! ## The session facade (`QuerySession::create`) -/

/-- Outcome of `QuerySession::create` (`src/query_session.rs` lines 56-77).
The engine connection and view construction are external (DuckDB); what the
facade decides is modelled: `noSessions` carries the reported path
(`data_dir`, else the project path, else the default empty path), `ready`
carries the discovered `SessionInfo` from which the views are built. -/
inductive CreateResult where
  | noSessions (path : String)
  | ready (info : SessionInfo)
  deriving DecidableEq, Repr

/-- `QuerySession::create`: run discovery, fail with `Error::NoSessions`
when the discovered `session_count` is zero, otherwise build the views and
return a ready session. -/
def create (fs : Fs) (project_path : Option String)
    (session_filter : Option String) (data_dir : Option AbsPath) : CreateResult :=
  let info := get_session_files fs project_path session_filter data_dir
  if info.session_count = 0 then
    .noSessions
      (match data_dir with
       | some d => pathString d
       | none =>
         match project_path with
         | some p => p
         | none => "")
  else .ready info

/-! ## Output formatting (`src/formatter.rs`) -/

/-- Left-align a value into a field of width `w`, padding with spaces on the
right; models Rust `format!` with a width.  Rust counts the padding target
in chars, so `String.length` (char count) is used here; `Nat` subtraction
saturates exactly as Rust pads nothing when the value is already wider. -/
def padTo (s : String) (w : Nat) : String :=
  s ++ strRepeat " " (w - s.length)

/-- Column widths: for each column, the max of the header's byte length and
the byte lengths of that column's cells (Rust `String::len` is a byte
count, modelled by `String.utf8ByteSize`); `max().unwrap_or(0)` over the
rows is a fold of `Nat.max` from `0`. -/
def columnWidths (columns : List String) (rows : List (List String)) : List Nat :=
  (List.range columns.length).zip columns |>.map fun iw =>
    Nat.max iw.2.utf8ByteSize
      ((rows.map fun r => ((r.get? iw.1).map String.utf8ByteSize).getD 0).foldl
        Nat.max 0)

/-- A horizontal border line built from the column widths, e.g.
`┌──┬──┐` for `l = "┌"`, `m = "┬"`, `r = "┐"`. -/
def borderLine (l m r : String) (widths : List Nat) : String :=
  l ++ joinWith m (widths.map fun w => strRepeat "─" (w + 2)) ++ r

/-- `format_table` (`src/formatter.rs` lines 68-148).  Zero rows: the
column names joined by `" | "`, a newline and `(0 rows)`.  Otherwise a
Unicode box-drawn table followed by a `(N row/rows)` footer, all joined by
newlines.  Cells are paired with their column's width by position (the
source indexes `widths[i]`; `zip` is the total model of that indexing on
well-formed rows). -/
def format_table (columns : List String) (rows : List (List String)) : String :=
  if rows.isEmpty then
    joinWith " | " columns ++ "\n(0 rows)"
  else
    joinWith "\n" (tableLines columns rows)
where
  /-- A padded, `│`-separated content line of the table. -/
  contentLine (widths : List Nat) (cells : List String) : String :=
    "│ " ++ joinWith " │ " ((cells.zip widths).map fun cw => padTo cw.1 cw.2) ++ " │"
  /-- The `(N row/rows)` trailer, singular exactly for one row. -/
  footer (rows : List (List String)) : String :=
    "(" ++ toString rows.length ++ " " ++
      (if rows.length = 1 then "row" else "rows") ++ ")"
  /-- Top border, header, separator, data rows, bottom border, row count. -/
  tableLines (columns : List String) (rows : List (List String)) : List String :=
    let widths := columnWidths columns rows
    [borderLine "┌" "┬" "┐" widths, contentLine widths columns,
      borderLine "├" "┼" "┤" widths] ++
    rows.map (contentLine widths) ++
    [borderLine "└" "┴" "┘" widths, footer rows]

/-- `format_tsv` (`src/formatter.rs` lines 151-158): header line then one
line per row, all tab-joined, newline-separated, no trailing delimiter. -/
def format_tsv (columns : List String) (rows : List (List String)) : String :=
  joinWith "\n" (joinWith "\t" columns :: rows.map (joinWith "\t"))

/-! ## Timestamp formatting (`format_timestamp` in `src/formatter.rs`) -/

/-- The storage units of `duckdb::types::TimeUnit`. -/
inductive TimeUnit where
  | Second
  | Millisecond
  | Microsecond
  | Nanosecond
  deriving DecidableEq, Repr

/-- The unit-normalisation arm of `format_timestamp` (`src/formatter.rs`
lines 38-43): convert a stored value to microseconds.  Rust's `i64`
division truncates toward zero, which is `Int.tdiv`. -/
def toMicros : TimeUnit → Int → Int
  | .Second, v => v * 1000000
  | .Millisecond, v => v * 1000
  | .Microsecond, v => v
  | .Nanosecond, v => v.tdiv 1000

/-- Zero-pad a natural number to at least `w` digits. -/
def padNum (w : Nat) (n : Nat) : String :=
  let s := toString n
  strRepeat "0" (w - s.length) ++ s

/-- Modelled from the spec: the external `chrono` rendering
`Utc.timestamp_micros(micros) |> format "%Y-%m-%d %H:%M:%S%.3f"` — a
fixed-width `YYYY-MM-DD HH:MM:SS.mmm` UTC string at millisecond precision
(proleptic Gregorian civil calendar from days since the Unix epoch).  The
`chrono` crate is outside the repository; only its input (the microsecond
value) is computed by repository code. -/
def renderMicrosUtc (micros : Int) : String :=
  let secs := micros.fdiv 1000000
  let subMicros := (micros - secs * 1000000).toNat
  let days := secs.fdiv 86400
  let sod := (secs - days * 86400).toNat
  -- civil date from days since 1970-01-01 (proleptic Gregorian)
  let z := days + 719468
  let era := z.fdiv 146097
  let doe := (z - era * 146097).toNat
  let yoe := (doe - doe / 1460 + doe / 36524 - doe / 146096) / 365
  let doy := doe - (365 * yoe + yoe / 4 - yoe / 100)
  let mp := (5 * doy + 2) / 153
  let d := doy - (153 * mp + 2) / 5 + 1
  let m := if mp < 10 then mp + 3 else mp - 9
  let y : Int := (yoe : Int) + era * 400 + (if m ≤ 2 then 1 else 0)
  let year := if y < 0 then "-" ++ padNum 4 (-y).toNat else padNum 4 y.toNat
  year ++ "-" ++ padNum 2 m ++ "-" ++ padNum 2 d ++ " " ++
    padNum 2 (sod / 3600) ++ ":" ++ padNum 2 (sod % 3600 / 60) ++ ":" ++
    padNum 2 (sod % 60) ++ "." ++ padNum 3 (subMicros / 1000)

/-- `format_timestamp` (`src/formatter.rs` lines 37-48): normalise the
stored value to microseconds, then render as a UTC
`YYYY-MM-DD HH:MM:SS.mmm` string. -/
def format_timestamp (unit : TimeUnit) (value : Int) : String :=
  renderMicrosUtc (toMicros unit value)

/-! ## Helper lemmas -/

/-- Char-list view of string concatenation. -/
theorem strToList_append (s t : String) : (s ++ t).toList = s.toList ++ t.toList :=
  String.data_append s t

/-- Unfolding `walk_and_count` one file at a time. -/
theorem walk_and_count_cons (dir : AbsPath) (sf : Option String)
    (r : List String) (files : List (List String)) :
    walk_and_count dir sf (r :: files) =
      fileCounts dir sf r + walk_and_count dir sf files := rfl

/-- Every single file contributes at most one session-or-agent count and
exactly that many total counts: componentwise, `fst + snd.fst ≤ snd.snd`. -/
theorem fileCounts_bound (dir : AbsPath) (sf : Option String) (r : List String) :
    (fileCounts dir sf r).1 + (fileCounts dir sf r).2.1 ≤ (fileCounts dir sf r).2.2 := by
  unfold fileCounts
  dsimp only
  repeat' split
  all_goals simp

/-! ## Claim C9 -/

/-- C9: for every root, filter and file list, the walk's triple satisfies
`sessions + agents ≤ total_jsonl`: each file is counted in at most one of
the two classified categories and always in the total when classified. -/
theorem claim_C9_theorem (dir : AbsPath) (sf : Option String)
    (files : List (List String)) :
    (walk_and_count dir sf files).1 + (walk_and_count dir sf files).2.1 ≤
      (walk_and_count dir sf files).2.2 := by
  induction files with
  | nil => simp [walk_and_count]
  | cons r rs ih =>
    have hb := fileCounts_bound dir sf r
    rw [walk_and_count_cons]
    simp only [Prod.fst_add, Prod.snd_add]
    omega

/-! ## Claim C7 -/

/-- C7: `FilePattern` rendering is exact and order-preserving: a single
glob renders as the quoted literal, a glob list renders as the bracketed
comma-space-joined quoted literals in order; in particular the two
examples from the specification render exactly as stated. -/
theorem claim_C7_theorem :
    (∀ g, FilePattern.render (.Single g) = "'" ++ g ++ "'") ∧
    (∀ gs, FilePattern.render (.Multiple gs) =
      "[" ++ joinWith ", " (gs.map fun g => "'" ++ g ++ "'") ++ "]") ∧
    FilePattern.render (.Single "/a/*.jsonl") = "'/a/*.jsonl'" ∧
    FilePattern.render (.Multiple ["/a/*.jsonl", "/b/*.jsonl"]) =
      "['/a/*.jsonl', '/b/*.jsonl']" :=
  ⟨fun _ => rfl, fun _ => rfl, by decide, by decide⟩

/-! ## Claim C10 -/

/-- C10: in all-projects mode, a zero summed session count short-circuits
to the all-zero `SessionInfo` with an empty `Single` pattern — the summed
agent count is discarded, whatever it was. -/
theorem claim_C10_theorem (base : AbsPath) (projects : List ProjectDir)
    (sf : Option String) (h : (allProjectsTotals base projects sf).1 = 0) :
    get_session_files_all_projects base projects sf =
      { session_count := 0, agent_count := 0, project_count := 0
        file_pattern := .Single "" } := by
  unfold get_session_files_all_projects
  simp [h]

/-- Witness for C10 at a tree whose only file is an agent file: the summed
agent count is `1` yet the returned `SessionInfo` is all-zero. -/
theorem claim_C10_witness :
    (allProjectsTotals ["h", ".claude", "projects"]
      [⟨"p1", [["s1", "subagents", "agent-a.jsonl"]]⟩] none).2.1 = 1 ∧
    get_session_files_all_projects ["h", ".claude", "projects"]
      [⟨"p1", [["s1", "subagents", "agent-a.jsonl"]]⟩] none =
      { session_count := 0, agent_count := 0, project_count := 0
        file_pattern := .Single "" } :=
  ⟨by decide, claim_C10_theorem _ _ _ (by decide)⟩

/-! ## Claim C1 -/

/-- C1 counterexample: in direct-data-dir mode over a tree whose only
`.jsonl` file is an agent file, discovery returns `session_count = 0` with
`agent_count = 1`, and `create` still fails with `NoSessions` — refuting
"creation proceeds whenever at least one of the two counts is nonzero". -/
theorem claim_C1_counterexample :
    (get_session_files
        { base := [], projects := [], resolveProjectPath := fun p => p
          dirExists := fun _ => false
          filesUnder := fun _ => [["s1", "subagents", "agent-x.jsonl"]] }
        none none (some ["d"])).agent_count = 1 ∧
    (get_session_files
        { base := [], projects := [], resolveProjectPath := fun p => p
          dirExists := fun _ => false
          filesUnder := fun _ => [["s1", "subagents", "agent-x.jsonl"]] }
        none none (some ["d"])).session_count = 0 ∧
    create
        { base := [], projects := [], resolveProjectPath := fun p => p
          dirExists := fun _ => false
          filesUnder := fun _ => [["s1", "subagents", "agent-x.jsonl"]] }
        none none (some ["d"]) = .noSessions "/d" := by
  refine ⟨by decide, by decide, by decide⟩

/-- C1 (amended): `QuerySession::create` fails with `NoSessions` if and
only if the discovered `session_count` is zero — the `agent_count` is not
consulted — and whenever `session_count` is nonzero it returns a ready
session built from the discovered info. -/
theorem claim_C1_theorem (fs : Fs) (pp sf : Option String) (dd : Option AbsPath) :
    ((∃ path, create fs pp sf dd = CreateResult.noSessions path) ↔
      (get_session_files fs pp sf dd).session_count = 0) ∧
    ((get_session_files fs pp sf dd).session_count ≠ 0 →
      create fs pp sf dd = CreateResult.ready (get_session_files fs pp sf dd)) := by
  unfold create
  by_cases h : (get_session_files fs pp sf dd).session_count = 0 <;> simp [h]

/-- Witness for C1 on a directory holding one ordinary session file:
`session_count` is nonzero and `create` returns the ready session. -/
theorem claim_C1_witness :
    create
        { base := [], projects := [], resolveProjectPath := fun p => p
          dirExists := fun _ => false, filesUnder := fun _ => [["x.jsonl"]] }
        none none (some ["d"]) =
      CreateResult.ready
        (get_session_files
          { base := [], projects := [], resolveProjectPath := fun p => p
            dirExists := fun _ => false, filesUnder := fun _ => [["x.jsonl"]] }
          none none (some ["d"])) :=
  ( claim_C1_theorem _ none none (some ["d"])).2 (by decide)

/-! ## Claim C2 -/

/-- C2 counterexample: direct-data-dir mode, filter `"abc"`, one matching
session file and no agents — the synthesized pattern is the `Multiple`
variant holding the single glob, not the `Single` variant the claim
states. -/
theorem claim_C2_counterexample :
    (get_session_files_data_dir ["d"] (some "abc") [["abc1.jsonl"]]).agent_count = 0 ∧
    (get_session_files_data_dir ["d"] (some "abc") [["abc1.jsonl"]]).file_pattern =
      FilePattern.Multiple ["/d/abc*.jsonl"] := by
  refine ⟨by decide, by decide⟩

/-- C2 (amended): in every addressing mode, when a session-ID filter is
given and discovery takes the normal (non-fallback, session-counting)
path, a zero agent count yields the `Multiple` variant holding exactly the
one glob `<root>/<filter>*.jsonl`; a second subagents glob is appended
only for a positive agent count. -/
theorem claim_C2_theorem (dir base : AbsPath) (f : String)
    (files : List (List String)) (projects : List ProjectDir)
    (s t : Nat) (h : walk_and_count dir (some f) files = (s, 0, t)) (hs : s ≠ 0)
    (s2 a2 j2 : Nat) (h2 : allProjectsTotals base projects (some f) = (s2, a2, j2))
    (hs2 : s2 ≠ 0) (ha2 : a2 = 0) :
    (get_session_files_data_dir dir (some f) files).file_pattern =
      FilePattern.Multiple [joinPathStr (pathString dir) (f ++ "*.jsonl")] ∧
    (get_session_files_project dir true (some f) files).file_pattern =
      FilePattern.Multiple [joinPathStr (pathString dir) (f ++ "*.jsonl")] ∧
    (get_session_files_all_projects base projects (some f)).file_pattern =
      FilePattern.Multiple
        [joinPathStr (joinPathStr (pathString base) "*") (f ++ "*.jsonl")] := by
  subst ha2
  refine ⟨?_, ?_, ?_⟩
  · unfold get_session_files_data_dir
    simp [h, hs]
  · unfold get_session_files_project
    simp [h, hs]
  · unfold get_session_files_all_projects
    simp [h2, hs2]

/-- Witness for C2: filter `"abc"`, a session file and no agents, in all
three modes at concrete trees. -/
theorem claim_C2_witness :
    (get_session_files_data_dir ["d"] (some "abc") [["abc1.jsonl"]]).file_pattern =
      FilePattern.Multiple ["/d/abc*.jsonl"] ∧
    (get_session_files_project ["d"] true (some "abc") [["abc1.jsonl"]]).file_pattern =
      FilePattern.Multiple ["/d/abc*.jsonl"] ∧
    (get_session_files_all_projects ["h"] [⟨"p1", [["abc1.jsonl"]]⟩]
        (some "abc")).file_pattern =
      FilePattern.Multiple ["/h/*/abc*.jsonl"] :=
  claim_C2_theorem ["d"] ["h"] "abc" [["abc1.jsonl"]] [⟨"p1", [["abc1.jsonl"]]⟩]
    1 1 (by decide) (by decide) 1 0 1 (by decide) (by decide) rfl

/-! ## Claim C5 -/

/-- C5: in direct data-directory mode the fallback fires exactly when the
walk classifies zero sessions and zero agents: with also zero total
`.jsonl` files the result is all-zero with an empty pattern; with a
positive total every `.jsonl` file becomes a session and the pattern is
the recursive glob; when either classified count is positive the
classified counts are returned unchanged (no fallback). -/
theorem claim_C5_theorem (dir : AbsPath) (sf : Option String)
    (files : List (List String)) (s a t : Nat)
    (h : walk_and_count dir sf files = (s, a, t)) :
    (s = 0 → a = 0 → t = 0 →
      get_session_files_data_dir dir sf files =
        { session_count := 0, agent_count := 0, project_count := 0
          file_pattern := .Single "" }) ∧
    (s = 0 → a = 0 → t ≠ 0 →
      get_session_files_data_dir dir sf files =
        { session_count := t, agent_count := 0, project_count := 1
          file_pattern := .Single (joinPathStr (pathString dir) "**/*.jsonl") }) ∧
    ((s ≠ 0 ∨ a ≠ 0) →
      (get_session_files_data_dir dir sf files).session_count = s ∧
      (get_session_files_data_dir dir sf files).agent_count = a) := by
  unfold get_session_files_data_dir
  refine ⟨?_, ?_, ?_⟩
  · intro hs ha ht
    subst hs; subst ha; subst ht
    simp [h]
  · intro hs ha ht
    subst hs; subst ha
    simp [h, ht]
  · intro hor
    have hne : ¬ (s = 0 ∧ a = 0) := by
      rcases hor with hs | ha
      · exact fun hc => hs hc.1
      · exact fun hc => ha hc.2
    simp [h, hne]

/-- Witness for C5, exercising the fallback: a lone `agent-a.jsonl`
outside any `subagents` directory classifies as neither session nor agent,
so the walk yields `(0, 0, 1)` and the fallback reports one session with
the recursive glob. -/
theorem claim_C5_witness :
    get_session_files_data_dir ["d"] none [["agent-a.jsonl"]] =
      { session_count := 1, agent_count := 0, project_count := 1
        file_pattern := .Single "/d/**/*.jsonl" } :=
  ( claim_C5_theorem ["d"] none [["agent-a.jsonl"]] 0 0 1 (by decide)).2.1
    rfl rfl (by decide)

/-! ## Claim C6 -/

/-- C6: for any instant representable in all four storage units (its
nanosecond count fits Rust's `i64`), formatting the same instant stored in
seconds, milliseconds, microseconds or nanoseconds produces the identical
UTC `YYYY-MM-DD HH:MM:SS.mmm` string: every unit normalises to the same
microsecond value (the nanosecond arm's truncating division by 1000 is
exact on a whole number of seconds). -/
theorem claim_C6_theorem (t : Int)
    (h1 : -(2 ^ 63) ≤ t * 1000000000) (h2 : t * 1000000000 < 2 ^ 63) :
    format_timestamp .Millisecond (t * 1000) = format_timestamp .Second t ∧
    format_timestamp .Microsecond (t * 1000000) = format_timestamp .Second t ∧
    format_timestamp .Nanosecond (t * 1000000000) = format_timestamp .Second t := by
  unfold format_timestamp toMicros
  refine ⟨congrArg renderMicrosUtc (by ring), rfl, congrArg renderMicrosUtc ?_⟩
  rw [show t * 1000000000 = t * 1000000 * 1000 by ring]
  exact Int.mul_tdiv_cancel _ (by norm_num)

/-- Witness for C6 at the instant `t = 1700000000` (2023-11-14T22:13:20Z),
whose nanosecond count fits `i64`. -/
theorem claim_C6_witness :
    (-(2 ^ 63) ≤ (1700000000 : Int) * 1000000000 ∧
      (1700000000 : Int) * 1000000000 < 2 ^ 63) ∧
    (format_timestamp .Millisecond (1700000000 * 1000) =
        format_timestamp .Second 1700000000 ∧
      format_timestamp .Microsecond (1700000000 * 1000000) =
        format_timestamp .Second 1700000000 ∧
      format_timestamp .Nanosecond (1700000000 * 1000000000) =
        format_timestamp .Second 1700000000) :=
  ⟨⟨by decide, by decide⟩, claim_C6_theorem 1700000000 (by decide) (by decide)⟩

/-! ## Claim C8 -/

/-- The Unicode box-drawing characters `format_table` uses. -/
def boxDrawingChars : List Char :=
  ['─', '┌', '┬', '┐', '│', '├', '┼', '┤', '└', '┴', '┘']

/-- `joinWith` over a cons with nonempty tail. -/
theorem joinWith_cons (sep a : String) (l : List String) (h : l ≠ []) :
    joinWith sep (a :: l) = a ++ sep ++ joinWith sep l := by
  cases l with
  | nil => exact absurd rfl h
  | cons b t => rfl

/-- `joinWith` peels the last element off a nonempty join. -/
theorem joinWith_append_single (sep : String) (l : List String) (x : String)
    (h : l ≠ []) :
    joinWith sep (l ++ [x]) = joinWith sep l ++ sep ++ x := by
  induction l with
  | nil => exact absurd rfl h
  | cons a t ih =>
    cases t with
    | nil => rfl
    | cons b t' =>
      rw [List.cons_append, joinWith_cons sep a (b :: t' ++ [x]) (by simp),
        joinWith_cons sep a (b :: t') (by simp), ih (by simp)]
      simp only [ String.append_assoc]

/-- Every character of a join comes from the separator or from one of the
joined strings. -/
theorem joinWith_chars (sep : String) (l : List String) :
    ∀ ch ∈ (joinWith sep l).toList,
      ch ∈ sep.toList ∨ ∃ x ∈ l, ch ∈ x.toList := by
  induction l with
  | nil => intro ch hch; simp [joinWith] at hch
  | cons a t ih =>
    cases t with
    | nil =>
      intro ch hch
      exact Or.inr ⟨a, by simp, hch⟩
    | cons b t' =>
      intro ch hch
      rw [joinWith_cons sep a (b :: t') (by simp), strToList_append,
        strToList_append] at hch
      rcases List.mem_append.1 hch with hch' | hch'
      · rcases List.mem_append.1 hch' with hch'' | hch''
        · exact Or.inr ⟨a, by simp, hch''⟩
        · exact Or.inl hch''
      · rcases ih ch hch' with hs | ⟨x, hx, hchx⟩
        · exact Or.inl hs
        · exact Or.inr ⟨x, by simp [hx], hchx⟩

/-- C8 counterexample: a column literally named `"┌"` makes the zero-row
output contain a box-drawing character, refuting "containing no
box-drawing characters" over every column list. -/
theorem claim_C8_counterexample :
    format_table ["┌"] [] = "┌\n(0 rows)" ∧
    '┌' ∈ (format_table ["┌"] []).toList ∧ '┌' ∈ boxDrawingChars := by
  refine ⟨by decide, by decide, by decide⟩

/-- C8 (amended): for every column list, zero rows yield exactly the
column names joined by `" | "` plus `"\n(0 rows)"`, and that output adds
no box-drawing characters of its own (it has none whenever the names have
none); with exactly one row the output starts with a `┌` top border and
ends with the singular `"(1 row)"`; with `n > 1` rows it ends with
`"(n rows)"`. -/
theorem claim_C8_theorem (columns : List String) (rows : List (List String)) :
    format_table columns [] = joinWith " | " columns ++ "\n(0 rows)" ∧
    ((∀ c ∈ columns, ∀ ch ∈ c.toList, ch ∉ boxDrawingChars) →
      ∀ ch ∈ (format_table columns []).toList, ch ∉ boxDrawingChars) ∧
    (rows.length = 1 →
      (∃ rest, format_table columns rows = "┌" ++ rest) ∧
      (∃ pre, format_table columns rows = pre ++ "\n" ++ "(1 row)")) ∧
    (1 < rows.length →
      ∃ pre, format_table columns rows =
        pre ++ "\n" ++ ("(" ++ toString rows.length ++ " rows)")) := by
  have heq : format_table columns [] = joinWith " | " columns ++ "\n(0 rows)" := rfl
  refine ⟨heq, ?_, ?_, ?_⟩
  · intro hcols ch hch hbox
    rw [heq, strToList_append] at hch
    rcases List.mem_append.1 hch with h1 | h1
    · rcases joinWith_chars _ _ ch h1 with hs | ⟨x, hx, hchx⟩
      · rw [show (" | ").toList = [' ', '|', ' '] from by decide] at hs
        simp only [List.mem_cons, List.not_mem_nil, or_false] at hs
        rcases hs with rfl | rfl | rfl <;> exact absurd hbox (by decide)
      · exact hcols x hx ch hchx hbox
    · rw [show ("\n(0 rows)").toList = ['\n', '(', '0', ' ', 'r', 'o', 'w', 's', ')']
          from by decide] at h1
      simp only [List.mem_cons, List.not_mem_nil, or_false] at h1
      rcases h1 with rfl | rfl | rfl | rfl | rfl | rfl | rfl | rfl | rfl <;>
        exact absurd hbox (by decide)
  · intro h1
    have hE : rows.isEmpty = false := by
      cases rows with
      | nil => simp at h1
      | cons _ _ => rfl
    have hft : format_table columns rows =
        joinWith "\n" (format_table.tableLines columns rows) := by
      simp [format_table, hE]
    have hfoot : format_table.footer rows = "(1 row)" := by
      unfold format_table.footer
      rw [h1]
      decide
    constructor
    · rw [hft, show format_table.tableLines columns rows =
          borderLine "┌" "┬" "┐" (columnWidths columns rows) ::
            (format_table.contentLine (columnWidths columns rows) columns ::
              borderLine "├" "┼" "┤" (columnWidths columns rows) ::
              (rows.map (format_table.contentLine (columnWidths columns rows)) ++
                [borderLine "└" "┴" "┘" (columnWidths columns rows),
                  format_table.footer rows]))
          from by simp [format_table.tableLines]]
      rw [joinWith_cons _ _ _ (by simp)]
      unfold borderLine
      simp only [ String.append_assoc]
      exact ⟨_, rfl⟩
    · rw [hft, show format_table.tableLines columns rows =
          ([borderLine "┌" "┬" "┐" (columnWidths columns rows),
            format_table.contentLine (columnWidths columns rows) columns,
            borderLine "├" "┼" "┤" (columnWidths columns rows)] ++
            rows.map (format_table.contentLine (columnWidths columns rows)) ++
            [borderLine "└" "┴" "┘" (columnWidths columns rows)]) ++
            [format_table.footer rows]
          from by simp [format_table.tableLines]]
      rw [joinWith_append_single _ _ _ (by simp), hfoot]
      exact ⟨_, rfl⟩
  · intro hgt
    have hE : rows.isEmpty = false := by
      cases rows with
      | nil => simp at hgt
      | cons _ _ => rfl
    have hft : format_table columns rows =
        joinWith "\n" (format_table.tableLines columns rows) := by
      simp [format_table, hE]
    have hfoot : format_table.footer rows =
        "(" ++ toString rows.length ++ " rows)" := by
      unfold format_table.footer
      rw [if_neg (by omega)]
      simp only [ String.append_assoc]
      exact congrArg (fun s => "(" ++ (toString rows.length ++ s)) (by decide)
    rw [hft, show format_table.tableLines columns rows =
        ([borderLine "┌" "┬" "┐" (columnWidths columns rows),
          format_table.contentLine (columnWidths columns rows) columns,
          borderLine "├" "┼" "┤" (columnWidths columns rows)] ++
          rows.map (format_table.contentLine (columnWidths columns rows)) ++
          [borderLine "└" "┴" "┘" (columnWidths columns rows)]) ++
          [format_table.footer rows]
        from by simp [format_table.tableLines]]
    rw [joinWith_append_single _ _ _ (by simp), hfoot]
    exact ⟨_, rfl⟩

/-- Witness for C8: concrete tables with zero, one and two rows. -/
theorem claim_C8_witness :
    (∀ ch ∈ (format_table ["a", "b"] []).toList, ch ∉ boxDrawingChars) ∧
    (∃ pre, format_table ["a", "b"] [["1", "2"]] = pre ++ "\n" ++ "(1 row)") ∧
    (∃ pre, format_table ["a", "b"] [["1", "2"], ["3", "4"]] =
      pre ++ "\n" ++ ("(" ++ toString (2 : Nat) ++ " rows)")) :=
  ⟨( claim_C8_theorem ["a", "b"] [["1", "2"]]).2.1 (by decide),
    (( claim_C8_theorem ["a", "b"] [["1", "2"]]).2.2.1 rfl).2,
    ( claim_C8_theorem ["a", "b"] [["1", "2"], ["3", "4"]]).2.2.2 (by decide)⟩

/-! ## Characterizing the `/subagents/` substring check

`walk_and_count` detects agent locations with a plain substring check
`path_str.contains("/subagents/")` on the rendered path.  Over component
paths whose names contain no slash, that substring test holds exactly when
some non-final component is literally `subagents`. -/

/-- Slash-joined component lists ending without a separator (the inner
part of a rendered path). -/
def icl : List (List Char) → List Char
  | [] => []
  | [c] => c
  | c :: d :: rest => c ++ '/' :: icl (d :: rest)

/-- The char list of a slash-join is the slash-interleaving of the char
lists. -/
theorem joinWith_toList (l : List String) :
    (joinWith "/" l).toList = icl (l.map String.toList) := by
  induction l with
  | nil => rfl
  | cons a t ih =>
    cases t with
    | nil => rfl
    | cons b t' =>
      show (a ++ "/" ++ joinWith "/" (b :: t')).toList = _
      rw [strToList_append, strToList_append, ih]
      simp [ List.append_assoc, icl]

/-- The char list of a rendered absolute path. -/
theorem pathString_toList (comps : AbsPath) :
    (pathString comps).toList = '/' :: icl (comps.map String.toList) := by
  unfold pathString
  rw [strToList_append, joinWith_toList]
  rfl

/-- A segment starting with `/` that occurs inside `c ++ s` with `c`
slash-free must occur inside `s`. -/
theorem slashSeg_drop (c : List Char) {s t : List Char} (hc : '/' ∉ c)
    (h : ('/' :: t) <:+: c ++ s) : ('/' :: t) <:+: s := by
  induction c with
  | nil => simpa using h
  | cons x c' ih =>
    rw [List.cons_append] at h
    rcases List.infix_cons_iff.1 h with hp | hi
    · have hx := ( List.cons_prefix_cons.1 hp).1
      exact absurd (by rw [hx]; exact List.mem_cons_self x c') hc
    · exact ih (fun hm => hc (List.mem_cons_of_mem x hm)) hi

/-- If `a ++ ['/']` is a prefix of `b ++ '/' :: r` with `a` and `b`
slash-free, then `a = b` (the first separators must line up). -/
theorem seg_eq_of_pre (a : List Char) : ∀ (b r : List Char), '/' ∉ a → '/' ∉ b →
    a ++ ['/'] <+: b ++ '/' :: r → a = b := by
  induction a with
  | nil =>
    intro b r _ hb h
    cases b with
    | nil => rfl
    | cons x b' =>
      rw [List.nil_append, List.cons_append] at h
      have hx := ( List.cons_prefix_cons.1 h).1
      exact absurd (by rw [hx]; exact List.mem_cons_self x b') hb
  | cons y a' ih =>
    intro b r ha hb h
    cases b with
    | nil =>
      rw [List.nil_append, List.cons_append] at h
      have hy := ( List.cons_prefix_cons.1 h).1
      exact absurd (by rw [← hy]; exact List.mem_cons_self y a') ha
    | cons x b' =>
      rw [List.cons_append, List.cons_append] at h
      obtain ⟨h1, h2⟩ := List.cons_prefix_cons.1 h
      have h3 := ih b' r (fun hm => ha (List.mem_cons_of_mem _ hm))
        (fun hm => hb (List.mem_cons_of_mem _ hm)) h2
      rw [h1, h3]

/-- `a ++ ['/']` is always a prefix of `a ++ '/' :: r`. -/
theorem seg_pre_self (a r : List Char) : a ++ ['/'] <+: a ++ '/' :: r := by
  have h : a ++ '/' :: r = (a ++ ['/']) ++ r := by simp
  rw [h]
  exact List.prefix_append _ _

/-- The substring `/sub/` occurs in the rendered path of slash-free
components exactly when `sub` is a non-final component. -/
theorem segMem_iff (sub : List Char) (hne : sub ≠ []) (hsl : '/' ∉ sub) :
    ∀ (comps : List (List Char)), (∀ c ∈ comps, '/' ∉ c) →
      ('/' :: (sub ++ ['/']) <:+: '/' :: icl comps ↔ sub ∈ comps.dropLast) := by
  intro comps
  induction comps with
  | nil =>
    intro _
    simp only [List.dropLast_nil, List.not_mem_nil, iff_false]
    intro h
    have hlen := h.sublist.length_le
    simp [icl] at hlen
  | cons c cs ih =>
    intro hc
    have hcc : '/' ∉ c := hc c (List.mem_cons_self c cs)
    have hcs : ∀ x ∈ cs, '/' ∉ x := fun x hx => hc x (List.mem_cons_of_mem c hx)
    cases cs with
    | nil =>
      simp only [List.dropLast_single, List.not_mem_nil, iff_false]
      intro h
      rcases List.infix_cons_iff.1 h with hp | hi
      · have h2 := ( List.cons_prefix_cons.1 hp).2
        exact hcc (h2.subset (by simp))
      · exact hcc (hi.sublist.subset (by simp))
    | cons d cs' =>
      have hicl : icl (c :: d :: cs') = c ++ '/' :: icl (d :: cs') := rfl
      constructor
      · intro h
        rw [List.dropLast_cons_of_ne_nil (by simp)]
        rcases List.infix_cons_iff.1 h with hp | hi
        · have h2 := ( List.cons_prefix_cons.1 hp).2
          rw [hicl] at h2
          have h3 := seg_eq_of_pre sub c _ hsl hcc h2
          rw [h3]
          exact List.mem_cons_self _ _
        · rw [hicl] at hi
          have h3 := slashSeg_drop c hcc hi
          exact List.mem_cons_of_mem c ((ih hcs).1 h3)
      · intro hm
        rw [List.dropLast_cons_of_ne_nil (by simp)] at hm
        rcases List.mem_cons.1 hm with rfl | hm'
        · apply List.infix_cons_iff.2
          left
          rw [hicl]
          exact List.cons_prefix_cons.2 ⟨rfl, seg_pre_self sub _⟩
        · apply List.infix_cons_iff.2
          right
          rw [hicl]
          exact ((ih hcs).2 hm').trans
            ( List.suffix_append c ('/' :: icl (d :: cs'))).isInfix

/-- `dropLast` commutes with `map`. -/
theorem map_dropLast_eq (f : String → List Char) :
    ∀ (l : List String), (l.map f).dropLast = l.dropLast.map f := by
  intro l
  induction l with
  | nil => rfl
  | cons a t ih =>
    cases t with
    | nil => rfl
    | cons b t' =>
      rw [List.map_cons,
        List.dropLast_cons_of_ne_nil (show List.map f (b :: t') ≠ [] by simp),
        ih, List.dropLast_cons_of_ne_nil (show (b :: t') ≠ [] by simp),
        List.map_cons]

/-- The walker's `path_str.contains("/subagents/")` test holds exactly
when some non-final path component is literally `subagents`, provided no
component contains a slash. -/
theorem containsSub_subagents_iff (comps : AbsPath)
    (hv : ∀ c ∈ comps, '/' ∉ c.toList) :
    strContainsSub (pathString comps) "/subagents/" = true ↔
      "subagents" ∈ comps.dropLast := by
  unfold strContainsSub
  rw [decide_eq_true_eq,
    show ("/subagents/").toList = '/' :: ("subagents".toList ++ ['/']) from by decide,
    pathString_toList,
    segMem_iff "subagents".toList (by decide) (by decide) (comps.map String.toList)
      (by
        intro c hcm
        rcases List.mem_map.1 hcm with ⟨x, hx, rfl⟩
        exact hv x hx),
    map_dropLast_eq]
  constructor
  · intro h
    rcases List.mem_map.1 h with ⟨x, hx, he⟩
    have hxe : x = "subagents" := String.ext he
    rw [← hxe]
    exact hx
  · intro h
    exact List.mem_map.2 ⟨"subagents", h, rfl⟩

/-! ## Claim C3 -/

/-- C3 counterexample: `agent-a.jsonl` sits in a directory `nested` whose
parent chain contains `subagents` higher up — its immediate parent is not
`subagents`, yet the walk counts it as an agent file (the source tests the
whole path string for `/subagents/`, not the immediate parent). -/
theorem claim_C3_counterexample :
    walk_and_count ["d"] none [["s1", "subagents", "nested", "agent-a.jsonl"]] =
      (0, 1, 1) ∧
    (["d", "s1", "subagents", "nested", "agent-a.jsonl"] : AbsPath).dropLast.getLast?
      ≠ some "subagents" := by
  refine ⟨by decide, by decide⟩

/-- C3 (amended): a `.jsonl` file is counted as an agent file exactly when
its rendered path contains the segment `/subagents/` — i.e. some ancestor
directory (not necessarily the immediate parent) is literally `subagents`
— and its basename starts with `agent-`; it is counted as a session file
exactly when its basename does not start with `agent-` and it is not under
any `subagents` directory; a file satisfying neither condition counts in
neither category. -/
theorem claim_C3_theorem (dir rel : AbsPath) (basename : String)
    (hv : ∀ c ∈ dir ++ rel, '/' ∉ c.toList)
    (hb : (dir ++ rel).getLast? = some basename)
    (hjs : strEndsWith (pathString (dir ++ rel)) ".jsonl" = true) :
    (fileCounts dir none rel = (0, 1, 1) ↔
      "subagents" ∈ (dir ++ rel).dropLast ∧ strStartsWith basename "agent-" = true) ∧
    (fileCounts dir none rel = (1, 0, 1) ↔
      strStartsWith basename "agent-" = false ∧
        "subagents" ∉ (dir ++ rel).dropLast) ∧
    (strStartsWith basename "agent-" = true ∧ "subagents" ∉ (dir ++ rel).dropLast →
      fileCounts dir none rel = (0, 0, 1)) ∧
    (strStartsWith basename "agent-" = false ∧ "subagents" ∈ (dir ++ rel).dropLast →
      fileCounts dir none rel = (0, 0, 1)) := by
  have hiff := containsSub_subagents_iff (dir ++ rel) hv
  by_cases hS : "subagents" ∈ (dir ++ rel).dropLast
  · have hStrue : strContainsSub (pathString (dir ++ rel)) "/subagents/" = true :=
      hiff.2 hS
    by_cases hA : strStartsWith basename "agent-" = true
    · simp [fileCounts, hjs, hb, hStrue, hA, hS]
    · simp only [Bool.not_eq_true] at hA
      simp [fileCounts, hjs, hb, hStrue, hA, hS]
  · have hSfalse : strContainsSub (pathString (dir ++ rel)) "/subagents/" = false := by
      cases hq : strContainsSub (pathString (dir ++ rel)) "/subagents/" with
      | true => exact absurd (hiff.1 hq) hS
      | false => rfl
    by_cases hA : strStartsWith basename "agent-" = true
    · simp [fileCounts, hjs, hb, hSfalse, hA, hS]
    · simp only [Bool.not_eq_true] at hA
      simp [fileCounts, hjs, hb, hSfalse, hA, hS]

/-- Witness for C3 at a regular agent file directly under a `subagents`
directory. -/
theorem claim_C3_witness :
    fileCounts ["d"] none ["s1", "subagents", "agent-a.jsonl"] = (0, 1, 1) :=
  ( claim_C3_theorem ["d"] ["s1", "subagents", "agent-a.jsonl"] "agent-a.jsonl"
    (by decide) (by decide) (by decide)).1.mpr (by decide)

/-! ## Claim C4 -/

/-- C4: under a filter `p`, a session-classified file is counted exactly
when its basename starts with `p`, while an agent file (immediate parent
`subagents`, basename starting `agent-`) is counted exactly when the
directory two levels above it — the session directory owning the
`subagents` folder — starts with `p`, regardless of the agent file's own
basename. -/
theorem claim_C4_theorem (dir rel : AbsPath) (p basename : String)
    (hv : ∀ c ∈ dir ++ rel, '/' ∉ c.toList)
    (hb : (dir ++ rel).getLast? = some basename)
    (hjs : strEndsWith (pathString (dir ++ rel)) ".jsonl" = true) :
    (strStartsWith basename "agent-" = false →
      "subagents" ∉ (dir ++ rel).dropLast →
      (fileCounts dir (some p) rel = (1, 0, 1) ↔
        strStartsWith basename p = true)) ∧
    ((dir ++ rel).dropLast.getLast? = some "subagents" →
      strStartsWith basename "agent-" = true →
      (fileCounts dir (some p) rel = (0, 1, 1) ↔
        ∃ sdir, twoUpName (dir ++ rel) = some sdir ∧
          strStartsWith sdir p = true)) := by
  have hiff := containsSub_subagents_iff (dir ++ rel) hv
  constructor
  · intro hA hS
    have hSfalse : strContainsSub (pathString (dir ++ rel)) "/subagents/" = false := by
      cases hq : strContainsSub (pathString (dir ++ rel)) "/subagents/" with
      | true => exact absurd (hiff.1 hq) hS
      | false => rfl
    by_cases hp : strStartsWith basename p = true
    · simp [fileCounts, hjs, hb, hSfalse, hA, hp]
    · simp only [Bool.not_eq_true] at hp
      simp [fileCounts, hjs, hb, hSfalse, hA, hp]
  · intro hpar hA
    have hS : "subagents" ∈ (dir ++ rel).dropLast :=
      List.mem_of_mem_getLast? hpar
    have hStrue : strContainsSub (pathString (dir ++ rel)) "/subagents/" = true :=
      hiff.2 hS
    cases ht : twoUpName (dir ++ rel) with
    | none => simp [fileCounts, hjs, hb, hStrue, hA, ht]
    | some sdir =>
      by_cases hp : strStartsWith sdir p = true
      · simp [fileCounts, hjs, hb, hStrue, hA, ht, hp]
      · simp only [Bool.not_eq_true] at hp
        simp [fileCounts, hjs, hb, hStrue, hA, ht, hp]

/-- Witness for C4: the agent basename `agent-zzz.jsonl` does not start
with the filter `abc`, but its session directory `abc123` two levels up
does, so the file is counted. -/
theorem claim_C4_witness :
    fileCounts ["d"] (some "abc") ["abc123", "subagents", "agent-zzz.jsonl"] =
      (0, 1, 1) ∧
    strStartsWith "agent-zzz.jsonl" "abc" = false :=
  ⟨(( claim_C4_theorem ["d"] ["abc123", "subagents", "agent-zzz.jsonl"] "abc"
      "agent-zzz.jsonl" (by decide) (by decide) (by decide)).2 (by decide)
      (by decide)).mpr ⟨"abc123", by decide, by decide⟩,
    by decide⟩

end CCQ
